import Mathlib

/-!
Verification of the connection-negotiation and chunked-transfer protocol of the
fileshare repository, against its two manager modules:

* `src/utils/webrtc.ts`    — `WebRTCManager` (1:1 pair transfer)
* `src/utils/chatWebRTC.ts` — `ChatWebRTCManager` (1:N broadcast chat/transfer)

The embedding is shallow: each class becomes a structure holding the fields the
protocol logic reads and writes, each method becomes a pure function from state
(plus the inbound message or call arguments) to a new state together with the
list of observable effects it performs (transport `send` calls, user-facing
callbacks, console warnings).  JavaScript `Map`s become association lists with
JS `Map` semantics (`set` replaces in place or appends, iteration in insertion
order); `ArrayBuffer`s become `List Nat` byte lists; the wire-level JSON
control frames, which the source distinguishes from binary frames by a
parse-or-fallback rule, become a tagged union.  Nondeterministic inputs of the
source (`Math.random`-based ids, `Date.now()` timestamps) are passed in as
explicit parameters.  External transports (`simple-peer` instances) are modelled
by the two observable properties the managers read: the `connected` flag and
whether `send` throws.
-/

namespace FileShare

/-- Association-list model of a JS `Map` with string or numeric keys:
lookup of the value stored under a key. -/
def mapGet {κ α : Type} [DecidableEq κ] (m : List (κ × α)) (k : κ) : Option α :=
  match m with
  | [] => none
  | (k', v') :: rest => if k = k' then some v' else mapGet rest k

/-- JS `Map.set`: replace the entry in place when the key is present,
otherwise append the new entry at the end (insertion order is preserved). -/
def mapSet {κ α : Type} [DecidableEq κ] (m : List (κ × α)) (k : κ) (v : α) :
    List (κ × α) :=
  match m with
  | [] => [(k, v)]
  | (k', v') :: rest => if k = k' then (k, v) :: rest else (k', v') :: mapSet rest k v

/-- JS `Map.delete`: remove the entry stored under a key, keeping order. -/
def mapDelete {κ α : Type} [DecidableEq κ] (m : List (κ × α)) (k : κ) :
    List (κ × α) :=
  match m with
  | [] => []
  | (k', v') :: rest => if k = k' then rest else (k', v') :: mapDelete rest k

/-- Fixed chunk size, `CHUNK_SIZE = 16384` in both manager modules. -/
def CHUNK_SIZE : Nat := 16384

/-- JS `Math.round((a / b) * 100)` for natural `a`, `b`, i.e. the nearest
integer to `100*a/b` with ties rounded up, computed as a natural number:
`floor((200*a + b) / (2*b))`. -/
def jsRound100 (a b : Nat) : Nat := (200 * a + b) / (2 * b)

/-- The external transport (`simple-peer` instance), reduced to the two
observable properties the manager code reads: its `connected` flag and whether
its `send` method throws. -/
structure Transport where
  connected : Bool
  sendThrows : Bool
deriving DecidableEq

/-- Metadata record `FileData` of the pair protocol (`{name, size, type, chunks}`),
carried by the `fileStart` control frame. -/
structure FileData where
  name : String
  size : Nat
  type : String
  chunks : Nat
deriving DecidableEq

/-- State of a `WebRTCManager` instance (`src/utils/webrtc.ts`): the optional
peer transport, the pending connection timeout, the current file metadata, the
map of received chunks and the arrival-order chunk counter. -/
structure WebRTCManager where
  fileData : Option FileData
  receivedChunks : List (Nat × List Nat)
  expectedChunkIndex : Nat
  peer : Option Transport
  connectionTimeout : Option Nat
deriving DecidableEq

/-- Inbound message of the pair protocol as seen by `handleReceivedData`.  On
the wire, control frames are JSON texts and chunks are raw binary; the source
separates them by attempting `JSON.parse` and falling back to the binary
branch, which this tagged union reflects (`unknown` is a JSON message whose
`type` tag is not one of the three recognized ones). -/
inductive PairMsg where
  | fileStart (data : FileData)
  | chunkStart (index size total : Nat)
  | fileComplete
  | unknown (tag : String)
  | binary (data : List Nat)
deriving DecidableEq

/-- Observable effects of the pair manager: the progress callback (the `speed`
field, constantly `0` in the source, is omitted), the file-received callback,
console warnings/errors, and destruction of the underlying transport. -/
inductive PairEvent where
  | progress (sent total percentage : Nat)
  | fileReceived (name mime : String) (bytes : List Nat)
  | warn (msg : String)
  | transportDestroyed
deriving DecidableEq

/-- Chunk count computed by `sendFile`: `Math.ceil(file.size / CHUNK_SIZE)`. -/
def sendChunkCount (size : Nat) : Nat := (size + CHUNK_SIZE - 1) / CHUNK_SIZE

/-- The bytes of chunk `i` sent by `sendFile`: `file.slice(start, end)` with
`start = i * CHUNK_SIZE` and `end = min(start + CHUNK_SIZE, file.size)`. -/
def sendChunk (payload : List Nat) (i : Nat) : List Nat :=
  (payload.drop (i * CHUNK_SIZE)).take
    (min (i * CHUNK_SIZE + CHUNK_SIZE) payload.length - i * CHUNK_SIZE)

/-- The chunk-carrying frames of `sendFile`'s loop, for indices `0..n-1`: for
each `i`, one `chunkStart` control frame `{index: i, size, total}` immediately
followed by the raw chunk bytes. -/
def framesUpTo (payload : List Nat) (total n : Nat) : List PairMsg :=
  (List.range n).flatMap fun i =>
    [PairMsg.chunkStart i (sendChunk payload i).length total,
     PairMsg.binary (sendChunk payload i)]

/-- The full sequence of `peer.send` calls performed by a successful run of
`WebRTCManager.sendFile`: the `fileStart` frame carrying the descriptor, then
the chunk frames in ascending order, then the `fileComplete` frame. -/
def sendFileFrames (name mime : String) (payload : List Nat) : List PairMsg :=
  PairMsg.fileStart
      ⟨name, payload.length, mime, sendChunkCount payload.length⟩
    :: (framesUpTo payload (sendChunkCount payload.length)
          (sendChunkCount payload.length)
        ++ [PairMsg.fileComplete])

/-- Model of `WebRTCManager.handleBinaryChunk`: requires file metadata; stores the
bytes under the key `expectedChunkIndex` (arrival order), increments the
counter, and reports progress as
`Math.round((receivedChunks.size / fileData.chunks) * 100)`. -/
def handleBinaryChunk (s : WebRTCManager) (data : List Nat) :
    WebRTCManager × List PairEvent :=
  match s.fileData with
  | none => (s, [PairEvent.warn "Cannot handle chunk: no file metadata"])
  | some fd =>
    let chunkIndex := s.expectedChunkIndex
    let chunks' := mapSet s.receivedChunks chunkIndex data
    ({ s with receivedChunks := chunks', expectedChunkIndex := chunkIndex + 1 },
     [PairEvent.progress chunks'.length fd.chunks
        (jsRound100 chunks'.length fd.chunks)])

/-- The chunk-collection loop of `assembleFile`: read the chunks stored under
keys `i, i+1, ..., i+n-1` in ascending order, failing if any is missing. -/
def collectFrom (m : List (Nat × List Nat)) (i n : Nat) :
    Option (List (List Nat)) :=
  match n with
  | 0 => some []
  | n + 1 =>
    match mapGet m i with
    | none => none
    | some c => (collectFrom m (i + 1) n).map (c :: ·)

/-- Model of `WebRTCManager.assembleFile`: requires metadata, requires
`receivedChunks.size == fileData.chunks`, then concatenates the chunks stored
under `0..chunks-1` in ascending order and fires the file-received callback;
any failure only logs and leaves the state untouched. -/
def assembleFile (s : WebRTCManager) : WebRTCManager × List PairEvent :=
  match s.fileData with
  | none => (s, [PairEvent.warn "Cannot assemble file: no metadata"])
  | some fd =>
    if s.receivedChunks.length ≠ fd.chunks then
      (s, [PairEvent.warn "Cannot assemble file: chunk count mismatch"])
    else
      match collectFrom s.receivedChunks 0 fd.chunks with
      | none => (s, [PairEvent.warn "Missing chunk"])
      | some cs => (s, [PairEvent.fileReceived fd.name fd.type cs.flatten])

/-- Model of `WebRTCManager.handleReceivedData`, the dispatcher attached to the
transport's `data` event: JSON control messages are dispatched on their `type`
tag (`fileStart` resets the receive state, `chunkStart` is a no-op,
`fileComplete` triggers assembly, anything else logs a warning); a frame that
is not valid JSON is treated as a binary chunk when file metadata is present
and is logged and dropped otherwise. -/
def handleReceivedData (s : WebRTCManager) (msg : PairMsg) :
    WebRTCManager × List PairEvent :=
  match msg with
  | PairMsg.fileStart fd =>
    ({ s with fileData := some fd, receivedChunks := [], expectedChunkIndex := 0 },
     [])
  | PairMsg.chunkStart _ _ _ => (s, [])
  | PairMsg.fileComplete => assembleFile s
  | PairMsg.unknown tag => (s, [PairEvent.warn ("Unknown message type: " ++ tag)])
  | PairMsg.binary data =>
    match s.fileData with
    | some _ => handleBinaryChunk s data
    | none => (s, [PairEvent.warn "Received binary data without file metadata"])

/-- Sequential delivery of a list of inbound messages to the pair manager, in
arrival order, accumulating the emitted events. -/
def runReceiver (s : WebRTCManager) : List PairMsg → WebRTCManager × List PairEvent
  | [] => (s, [])
  | msg :: msgs =>
    let r1 := handleReceivedData s msg
    let r2 := runReceiver r1.1 msgs
    (r2.1, r1.2 ++ r2.2)

/-- A freshly constructed receiving `WebRTCManager` before any message arrives:
no metadata, no chunks, counter `0`. -/
def freshReceiver : WebRTCManager :=
  { fileData := none, receivedChunks := [], expectedChunkIndex := 0,
    peer := none, connectionTimeout := none }

/-- Model of `WebRTCManager.destroy`: clears the connection timeout, destroys the peer
transport when one is present, and resets all transfer state. -/
def pairDestroy (s : WebRTCManager) : WebRTCManager × List PairEvent :=
  ({ fileData := none, receivedChunks := [], expectedChunkIndex := 0,
     peer := none, connectionTimeout := none },
   if s.peer.isSome then [PairEvent.transportDestroyed] else [])

/-- A `ChatMessage` of the broadcast protocol reduced to its protocol-relevant
fields; the `id` (from `Math.random`) and `timestamp` (`Date.now()`) fields of
the source are external entropy and are not modelled. -/
structure ChatMsg where
  content : String
  sender : String
  subscriberId : Option String
  kind : String
deriving DecidableEq

/-- Per-`fileId` transfer state of `ChatWebRTCManager.fileTransfers`. -/
structure ChatTransfer where
  chunks : List (Nat × List Nat)
  receivedChunks : Nat
  totalChunks : Nat
  fileName : String
  fileSize : Nat
  fileType : String
deriving DecidableEq

/-- A host-side `Subscriber` record. -/
structure Subscriber where
  id : String
  name : String
  connected : Bool
  joinedAt : Nat
deriving DecidableEq

/-- A `ChatSignalData` envelope, keeping the fields `processAnswer` reads; the
opaque transport descriptor (`signal`) is not modelled.  `subscriberId` and
`subscriberName` are optional in the source type, and the source treats the
empty string the same as an absent field (JS falsiness). -/
structure ChatSignalData where
  type : String
  subscriberId : Option String
  subscriberName : Option String
deriving DecidableEq

/-- JS falsiness of an optional string field: absent or empty. -/
def falsyStr : Option String → Bool
  | none => true
  | some s => s = ""

/-- State of a `ChatWebRTCManager` instance (`src/utils/chatWebRTC.ts`). -/
structure ChatState where
  isHost : Bool
  peers : List (String × Transport)
  subscribers : List (String × Subscriber)
  hostPeer : Option Transport
  subscriberId : String
  subscriberName : String
  fileTransfers : List (String × ChatTransfer)
deriving DecidableEq

/-- Wire messages of the broadcast protocol: the four JSON control frames plus
raw binary chunk data (distinguished on the wire by the parse-or-fallback
rule, as in the pair protocol). -/
inductive Wire where
  | message (m : ChatMsg)
  | fileStart (fileId fileName : String) (fileSize : Nat) (fileType : String)
      (totalChunks : Nat)
  | fileChunk (fileId : String) (chunkIndex totalChunks : Nat)
  | fileComplete (fileId : String)
  | binary (data : List Nat)
deriving DecidableEq

/-- Observable effects of the broadcast manager: a `peer.send` call to a given
subscriber's transport (with whether it succeeded), the message callback, the
assembled-file message callback (carrying the reconstructed bytes), the file
progress callback, membership callbacks, the external `peer.signal` call, and
transport destruction. -/
inductive ChatEvent where
  | sendAttempt (sid : String) (w : Wire) (ok : Bool)
  | messageShown (m : ChatMsg)
  | fileAssembled (fileId fileName : String) (fileSize : Nat) (fileType : String)
      (bytes : List Nat)
  | fileProgress (percentage : Nat) (fileName : String)
  | subscriberJoined (sid name : String)
  | subscriberLeft (sid : String)
  | signaled (sid : String)
  | transportDestroyed (sid : String)
  | hostTransportDestroyed
  | warn (msg : String)
deriving DecidableEq

/-- Errors thrown by the broadcast manager's methods. -/
inductive ChatError where
  | onlyHostCanCreateOffers
  | hostCannotCreateAnswers
  | onlyHostCanProcessAnswers
  | onlyHostCanSendFiles
  | invalidAnswerData
  | peerNotFound
deriving DecidableEq

/-- One `try { peer.send(w₁); …; peer.send(wₙ) } catch { log }` block directed
at the transport stored under `sid`: nothing happens when no transport is
stored or it is not connected; when its `send` throws, the first call is made
(and fails) and the remaining ones are skipped; otherwise every frame is
sent. -/
def sendTo (s : ChatState) (sid : String) (ws : List Wire) : List ChatEvent :=
  match mapGet s.peers sid with
  | none => []
  | some p =>
    if p.connected then
      if p.sendThrows then (ws.take 1).map (fun w => ChatEvent.sendAttempt sid w false)
      else ws.map (fun w => ChatEvent.sendAttempt sid w true)
    else []

/-- Model of `ChatWebRTCManager.sendMessage`: the host fans the message out to the given
targets (default: all subscribers), each per-transport send individually
guarded and best-effort; a subscriber sends to the host link only; in every
case the message is also surfaced locally through the message callback. -/
def sendMessage (s : ChatState) (content : String)
    (targetsOpt : Option (List String)) : ChatState × List ChatEvent :=
  let m : ChatMsg :=
    if s.isHost then ⟨content, "host", none, "text"⟩
    else ⟨content, "subscriber", some s.subscriberId, "text"⟩
  let sends :=
    if s.isHost then
      (targetsOpt.getD (s.subscribers.map Prod.fst)).flatMap fun sid =>
        sendTo s sid [Wire.message m]
    else
      match s.hostPeer with
      | some p =>
        if p.connected then
          [ChatEvent.sendAttempt "host" (Wire.message m) (!p.sendThrows)]
        else []
      | none => []
  (s, sends ++ [ChatEvent.messageShown m])

/-- Model of `ChatWebRTCManager.createOffer`: host only; allocates a fresh subscriber id
(the `Math.random`-based id is passed in as `newId`), constructs a new
initiator transport — not yet connected — and stores it under that id before
the handshake completes. -/
def createOffer (s : ChatState) (newId : String) :
    Except ChatError (ChatState × ChatSignalData) :=
  if !s.isHost then Except.error ChatError.onlyHostCanCreateOffers
  else
    Except.ok
      ({ s with peers := mapSet s.peers newId ⟨false, false⟩ },
       ⟨"offer", some newId, none⟩)

/-- Model of `ChatWebRTCManager.processAnswer`: host only; rejects an envelope whose
`subscriberId` or `subscriberName` is absent or empty; looks up the pending
transport under the envelope's id and fails when none is stored; otherwise
signals the answer, records the subscriber as connected with the current
timestamp, fires the joined callback, and sends the private welcome message to
just that subscriber via `sendMessage`. -/
def processAnswer (s : ChatState) (a : ChatSignalData) (now : Nat) :
    Except ChatError (ChatState × List ChatEvent) :=
  if !s.isHost then Except.error ChatError.onlyHostCanProcessAnswers
  else if falsyStr a.subscriberId || falsyStr a.subscriberName then
    Except.error ChatError.invalidAnswerData
  else
    let sid := a.subscriberId.getD ""
    let sname := a.subscriberName.getD ""
    match mapGet s.peers sid with
    | none => Except.error ChatError.peerNotFound
    | some _ =>
      let sub : Subscriber := ⟨sid, sname, true, now⟩
      let s1 := { s with subscribers := mapSet s.subscribers sid sub }
      let r := sendMessage s1 "Welcome to the chat!" (some [sid])
      Except.ok
        (r.1,
         ChatEvent.signaled sid :: ChatEvent.subscriberJoined sid sname :: r.2)

/-- The events emitted by one run of `ChatWebRTCManager.sendFile`'s body: the
local file message, the `fileStart` fan-out, then per chunk index the
per-target `fileChunk`-metadata-then-binary pair fan-out followed by one
aggregate progress callback, then the `fileComplete` fan-out. -/
def chatSendFileEvents (s : ChatState) (fileId fileName : String)
    (payload : List Nat) (fileType : String) (targetsOpt : Option (List String)) :
    List ChatEvent :=
  let n := sendChunkCount payload.length
  let targets := targetsOpt.getD (s.subscribers.map Prod.fst)
  ChatEvent.messageShown ⟨"📁 " ++ fileName, "host", none, "file"⟩
    :: (targets.flatMap (fun sid =>
          sendTo s sid [Wire.fileStart fileId fileName payload.length fileType n])
        ++ (List.range n).flatMap (fun i =>
             targets.flatMap (fun sid =>
               sendTo s sid
                 [Wire.fileChunk fileId i n, Wire.binary (sendChunk payload i)])
             ++ [ChatEvent.fileProgress (jsRound100 (i + 1) n) fileName])
        ++ targets.flatMap (fun sid =>
             sendTo s sid [Wire.fileComplete fileId]))

/-- Model of `ChatWebRTCManager.sendFile`: host only; otherwise emits
`chatSendFileEvents` and leaves the manager state unchanged. -/
def chatSendFile (s : ChatState) (fileId fileName : String) (payload : List Nat)
    (fileType : String) (targetsOpt : Option (List String)) :
    Except ChatError (List ChatEvent) :=
  if !s.isHost then Except.error ChatError.onlyHostCanSendFiles
  else Except.ok (chatSendFileEvents s fileId fileName payload fileType targetsOpt)

/-- Model of `ChatWebRTCManager.handleFileStart`: opens a fresh `TransferState` under
the frame's `fileId` and shows the receiving message. -/
def chatHandleFileStart (s : ChatState) (fileId fileName : String)
    (fileSize : Nat) (fileType : String) (totalChunks : Nat) :
    ChatState × List ChatEvent :=
  let tr : ChatTransfer := ⟨[], 0, totalChunks, fileName, fileSize, fileType⟩
  ({ s with fileTransfers := mapSet s.fileTransfers fileId tr },
   [ChatEvent.messageShown
      ⟨"📁 Receiving " ++ fileName ++ "...", "host", none, "file"⟩])

/-- The loop of `ChatWebRTCManager.handleBinaryChunk` over
`fileTransfers.entries()` (insertion order): the binary data is stored in the
FIRST transfer that is not yet complete — at key `receivedChunks`, which is
then incremented, with a progress callback — and the loop breaks; the declared
`fileId`/`chunkIndex` of the preceding `fileChunk` frame play no role. -/
def chatBinaryStore (ts : List (String × ChatTransfer)) (data : List Nat) :
    List (String × ChatTransfer) × List ChatEvent :=
  match ts with
  | [] => ([], [])
  | (fid, tr) :: rest =>
    if tr.receivedChunks < tr.totalChunks then
      let tr' : ChatTransfer :=
        { tr with chunks := mapSet tr.chunks tr.receivedChunks data,
                  receivedChunks := tr.receivedChunks + 1 }
      ((fid, tr') :: rest,
       [ChatEvent.fileProgress (jsRound100 (tr.receivedChunks + 1) tr.totalChunks)
          tr.fileName])
    else
      let r := chatBinaryStore rest data
      ((fid, tr) :: r.1, r.2)

/-- Model of `ChatWebRTCManager.handleBinaryChunk` on the manager state. -/
def chatHandleBinaryChunk (s : ChatState) (data : List Nat) :
    ChatState × List ChatEvent :=
  let r := chatBinaryStore s.fileTransfers data
  ({ s with fileTransfers := r.1 }, r.2)

/-- Model of `ChatWebRTCManager.handleFileComplete`: looks up the transfer by `fileId`,
fails when it is absent, when `receivedChunks ≠ totalChunks`, or when any index
in `[0, totalChunks)` is missing; otherwise assembles the chunks in ascending
index order, surfaces the completed file message and deletes the transfer. -/
def chatHandleFileComplete (s : ChatState) (fileId : String) :
    ChatState × List ChatEvent :=
  match mapGet s.fileTransfers fileId with
  | none => (s, [ChatEvent.warn "File transfer not found"])
  | some tr =>
    if tr.receivedChunks ≠ tr.totalChunks then
      (s, [ChatEvent.warn "Incomplete file transfer"])
    else
      match collectFrom tr.chunks 0 tr.totalChunks with
      | none => (s, [ChatEvent.warn "Missing chunk"])
      | some cs =>
        ({ s with fileTransfers := mapDelete s.fileTransfers fileId },
         [ChatEvent.fileAssembled fileId tr.fileName tr.fileSize tr.fileType
            cs.flatten])

/-- Model of `ChatWebRTCManager.handleReceivedData`: dispatch on the parsed frame's
`type` tag, falling back to the binary-chunk branch for non-JSON data.  The
`senderId` parameter is accepted but, as in the source, ignored by every
file-transfer handler. -/
def chatHandleReceivedData (s : ChatState) (w : Wire) (_senderId : String) :
    ChatState × List ChatEvent :=
  match w with
  | Wire.message m => (s, [ChatEvent.messageShown m])
  | Wire.fileStart fid name size ty total =>
    chatHandleFileStart s fid name size ty total
  | Wire.fileChunk _ _ _ => (s, [])
  | Wire.fileComplete fid => chatHandleFileComplete s fid
  | Wire.binary d => chatHandleBinaryChunk s d

/-- Sequential delivery of inbound wire messages from the host to a subscriber
manager, accumulating events. -/
def runChat (s : ChatState) : List Wire → ChatState × List ChatEvent
  | [] => (s, [])
  | w :: ws =>
    let r1 := chatHandleReceivedData s w "host"
    let r2 := runChat r1.1 ws
    (r2.1, r1.2 ++ r2.2)

/-- Model of `ChatWebRTCManager.destroy`: destroys every per-subscriber transport and
clears the transport map, destroys the host link, and clears the subscriber
map.  The `fileTransfers` map is not touched. -/
def chatDestroy (s : ChatState) : ChatState × List ChatEvent :=
  ({ s with peers := [], hostPeer := none, subscribers := [] },
   s.peers.map (fun q => ChatEvent.transportDestroyed q.1)
     ++ if s.hostPeer.isSome then [ChatEvent.hostTransportDestroyed] else [])

/-- Model of `ChatWebRTCManager.isConnected`: on the host, whether the transport map is
non-empty; on a subscriber, the host link's `connected` flag. -/
def chatIsConnected (s : ChatState) : Bool :=
  if s.isHost then decide (0 < s.peers.length)
  else
    match s.hostPeer with
    | some p => p.connected
    | none => false

/-- Event predicate: is this a per-transport send call. -/
def isSendAttemptEv : ChatEvent → Bool
  | ChatEvent.sendAttempt _ _ _ => true
  | _ => false

/-- Event predicate: is this the local message callback. -/
def isMessageShownEv : ChatEvent → Bool
  | ChatEvent.messageShown _ => true
  | _ => false

/-- Event predicate: is this the subscriber-joined callback. -/
def isJoinedEv : ChatEvent → Bool
  | ChatEvent.subscriberJoined _ _ => true
  | _ => false

/-- Event predicate: is this the assembled-file message. -/
def isFileAssembledEv : ChatEvent → Bool
  | ChatEvent.fileAssembled _ _ _ _ _ => true
  | _ => false

/-- Event predicate: is this the pair manager's file-received callback. -/
def isFileReceivedEv : PairEvent → Bool
  | PairEvent.fileReceived _ _ _ => true
  | _ => false

/-- The wire frames sent to the transport of subscriber `sid`, in order, read
off an event trace. -/
def sentWiresTo (sid : String) (evs : List ChatEvent) : List Wire :=
  evs.filterMap fun e =>
    match e with
    | ChatEvent.sendAttempt t w _ => if t = sid then some w else none
    | _ => none

/-- Frame predicate: is this the pair protocol's `fileStart` control frame. -/
def isFileStartMsg : PairMsg → Bool
  | PairMsg.fileStart _ => true
  | _ => false

/-- Frame predicate: is this the pair protocol's `fileComplete` control
frame. -/
def isFileCompleteMsg : PairMsg → Bool
  | PairMsg.fileComplete => true
  | _ => false

/-- The byte payload of a binary frame, `none` for control frames. -/
def binaryData : PairMsg → Option (List Nat)
  | PairMsg.binary d => some d
  | _ => none

/-- List of chunks paired with their ascending arrival indices starting at
`j`; describes the `receivedChunks` map of a receiver that has accepted the
given chunks in order. -/
def idxFrom {α : Type} (j : Nat) : List α → List (Nat × α)
  | [] => []
  | a :: as => (j, a) :: idxFrom (j + 1) as

/-- Host state used to exercise `processAnswer` on a pending transport that has
not yet completed the handshake (its `connected` flag is still false, exactly
the situation right after the answer is signalled). -/
def pendingHost : ChatState :=
  { isHost := true, peers := [("a", ⟨false, false⟩)], subscribers := [],
    hostPeer := none, subscriberId := "", subscriberName := "",
    fileTransfers := [] }

/-- A well-formed answer envelope for the pending transport of
`pendingHost`. -/
def pendingAnswer : ChatSignalData := ⟨"answer", some "a", some "Ann"⟩

/-- Host state with one pending transport that is already connected. -/
def connectedHost : ChatState :=
  { isHost := true, peers := [("b", ⟨true, false⟩)], subscribers := [],
    hostPeer := none, subscriberId := "", subscriberName := "",
    fileTransfers := [] }

/-- Host state with two connected subscribers, the second of which has a
transport whose `send` throws. -/
def twoSubHost : ChatState :=
  { isHost := true,
    peers := [("p", ⟨true, false⟩), ("q", ⟨true, true⟩)],
    subscribers := [("p", ⟨"p", "Pat", true, 0⟩), ("q", ⟨"q", "Quin", true, 0⟩)],
    hostPeer := none, subscriberId := "", subscriberName := "",
    fileTransfers := [] }

/-- A fresh subscriber-side broadcast manager connected to the host. -/
def freshChatSubscriber : ChatState :=
  { isHost := false, peers := [], subscribers := [],
    hostPeer := some ⟨true, false⟩, subscriberId := "s1",
    subscriberName := "Sub", fileTransfers := [] }

/-- The inbound frame sequence of two overlapping broadcast transfers "A"
(2 chunks) and "B" (1 chunk): after both `fileStart` frames, the host declares
chunk 0 of "B" and sends its bytes `[7]`, then declares chunk 0 of "A" and
sends its bytes `[9]`, then completes "A". -/
def interleavedFrames : List Wire :=
  [Wire.fileStart "A" "a.bin" 32768 "app" 2,
   Wire.fileStart "B" "b.bin" 1 "app" 1,
   Wire.fileChunk "B" 0 1,
   Wire.binary [7],
   Wire.fileChunk "A" 0 2,
   Wire.binary [9],
   Wire.fileComplete "A"]

/-- A subscriber-side broadcast manager holding one in-flight file transfer. -/
def busyChatSubscriber : ChatState :=
  { isHost := false, peers := [], subscribers := [],
    hostPeer := some ⟨true, false⟩, subscriberId := "s1",
    subscriberName := "Sub",
    fileTransfers := [("f", ⟨[(0, [1])], 1, 2, "x.bin", 20000, "app"⟩)] }

/-- A pair receiver that has accepted the only chunk of a one-chunk file. -/
def oneChunkReceiver : WebRTCManager :=
  { fileData := some ⟨"a.bin", 1, "app", 1⟩, receivedChunks := [(0, [9])],
    expectedChunkIndex := 1, peer := none, connectionTimeout := none }

/-- A pair receiver that has just processed the `fileStart` frame of a
one-chunk file. -/
def startedReceiver : WebRTCManager :=
  { fileData := some ⟨"a.bin", 5, "app", 1⟩, receivedChunks := [],
    expectedChunkIndex := 0, peer := none, connectionTimeout := none }

theorem mapGet_mapSet_self {κ α : Type} [DecidableEq κ]
    (m : List (κ × α)) (k : κ) (v : α) : mapGet (mapSet m k v) k = some v := by
  induction m with
  | nil => simp [mapGet, mapSet]
  | cons h t ih =>
    by_cases hk : k = h.1
    · simp [mapGet, mapSet, hk]
    · simp only [mapSet, hk, if_false]
      simp [mapGet, hk, ih]

theorem mapGet_mapSet_ne {κ α : Type} [DecidableEq κ]
    (m : List (κ × α)) (k k' : κ) (v : α) (h : k' ≠ k) :
    mapGet (mapSet m k v) k' = mapGet m k' := by
  induction m with
  | nil => simp [mapGet, mapSet, h]
  | cons hd t ih =>
    by_cases hk : k = hd.1
    · subst hk
      simp [mapGet, mapSet, h]
    · simp only [mapSet, hk, if_false]
      by_cases hk' : k' = hd.1
      · simp [mapGet, hk']
      · simp [mapGet, hk', ih]

theorem mapSet_eq_append {κ α : Type} [DecidableEq κ]
    (m : List (κ × α)) (k : κ) (v : α) (h : mapGet m k = none) :
    mapSet m k v = m ++ [(k, v)] := by
  induction m with
  | nil => simp [mapSet]
  | cons hd t ih =>
    by_cases hk : k = hd.1
    · simp [mapGet, hk] at h
    · simp only [mapGet, hk, if_false] at h
      simp [mapSet, hk, ih h]

theorem mapSet_ne_nil {κ α : Type} [DecidableEq κ]
    (m : List (κ × α)) (k : κ) (v : α) : mapSet m k v ≠ [] := by
  cases m with
  | nil => simp [mapSet]
  | cons hd t =>
    by_cases hk : k = hd.1 <;> simp [mapSet, hk]

theorem length_idxFrom {α : Type} (j : Nat) (l : List α) :
    (idxFrom j l).length = l.length := by
  induction l generalizing j with
  | nil => rfl
  | cons a as ih => simp [idxFrom, ih]

theorem mapGet_idxFrom_ge {α : Type} (l : List α) (j k : Nat)
    (h : j + l.length ≤ k) : mapGet (idxFrom j l) k = none := by
  induction l generalizing j with
  | nil => rfl
  | cons a as ih =>
    have hne : k ≠ j := by simp at h; omega
    simp only [idxFrom, mapGet, hne, if_false]
    exact ih (j + 1) (by simp at h ⊢; omega)

theorem mapGet_idxFrom_add {α : Type} (l : List α) (j i : Nat) :
    mapGet (idxFrom j l) (j + i) = l[i]? := by
  induction l generalizing j i with
  | nil => simp [idxFrom, mapGet]
  | cons a as ih =>
    cases i with
    | zero => simp [idxFrom, mapGet]
    | succ i =>
      have hne : j + (i + 1) ≠ j := by omega
      simp only [idxFrom, mapGet, hne, if_false, List.getElem?_cons_succ]
      have := ih (j + 1) i
      rw [show j + (i + 1) = j + 1 + i by omega]
      exact this

theorem idxFrom_append_singleton {α : Type} (l : List α) (j : Nat) (a : α) :
    idxFrom j (l ++ [a]) = idxFrom j l ++ [(j + l.length, a)] := by
  induction l generalizing j with
  | nil => simp [idxFrom]
  | cons b bs ih =>
    show (j, b) :: idxFrom (j + 1) (bs ++ [a])
        = ((j, b) :: idxFrom (j + 1) bs) ++ [(j + (bs.length + 1), a)]
    rw [ih (j + 1), List.cons_append,
      show j + (bs.length + 1) = j + 1 + bs.length by omega]

theorem collectFrom_of_get (l : List (List Nat))
    (m : List (Nat × List Nat)) (j : Nat)
    (h : ∀ i, mapGet m (j + i) = l[i]?) :
    collectFrom m j l.length = some l := by
  induction l generalizing j with
  | nil => rfl
  | cons c cs ih =>
    have h0 : mapGet m j = some c := by
      have := h 0
      simpa using this
    simp only [List.length_cons, collectFrom, h0]
    rw [ih (j + 1) (fun i => by
      have := h (i + 1)
      rw [show j + (i + 1) = j + 1 + i by omega] at this
      simpa using this)]
    rfl

theorem collectFrom_isSome_iff (m : List (Nat × List Nat)) (j n : Nat) :
    (collectFrom m j n).isSome ↔ ∀ i < n, (mapGet m (j + i)).isSome := by
  induction n generalizing j with
  | zero => simp [collectFrom]
  | succ n ih =>
    have step : (collectFrom m j (n + 1)).isSome
        ↔ (mapGet m j).isSome ∧ (collectFrom m (j + 1) n).isSome := by
      simp only [collectFrom]
      cases mapGet m j with
      | none => simp
      | some c =>
        cases collectFrom m (j + 1) n with
        | none => simp
        | some l => simp
    rw [step, ih (j + 1)]
    constructor
    · rintro ⟨h0, hrest⟩ i hi
      cases i with
      | zero => simpa using h0
      | succ i =>
        have := hrest i (by omega)
        rw [show j + 1 + i = j + (i + 1) by omega] at this
        exact this
    · intro h
      refine ⟨by simpa using h 0 (by omega), fun i hi => ?_⟩
      have := h (i + 1) (by omega)
      rw [show j + (i + 1) = j + 1 + i by omega] at this
      exact this

theorem sendChunk_eq_take (payload : List Nat) (i : Nat) :
    sendChunk payload i = (payload.drop (i * CHUNK_SIZE)).take CHUNK_SIZE := by
  unfold sendChunk
  rw [List.take_eq_take]
  simp only [List.length_drop]
  omega

theorem sendChunk_zero (payload : List Nat) :
    sendChunk payload 0 = payload.take CHUNK_SIZE := by
  rw [sendChunk_eq_take]
  simp

theorem sendChunk_succ (payload : List Nat) (i : Nat) :
    sendChunk payload (i + 1) = sendChunk (payload.drop CHUNK_SIZE) i := by
  rw [sendChunk_eq_take, sendChunk_eq_take, List.drop_drop,
    show CHUNK_SIZE + i * CHUNK_SIZE = (i + 1) * CHUNK_SIZE by ring]

theorem flatten_sendChunks :
    ∀ (n : Nat) (l : List Nat), n = sendChunkCount l.length →
      ((List.range n).map (sendChunk l)).flatten = l := by
  intro n
  induction n with
  | zero =>
    intro l h
    have : l.length = 0 := by
      simp only [sendChunkCount, CHUNK_SIZE] at h
      omega
    rw [List.length_eq_zero] at this
    subst this
    rfl
  | succ n ih =>
    intro l h
    rw [List.range_succ_eq_map, List.map_cons, List.map_map, List.flatten_cons]
    have hmap : (List.range n).map (sendChunk l ∘ Nat.succ)
        = (List.range n).map (sendChunk (l.drop CHUNK_SIZE)) := by
      refine List.map_congr_left fun i _ => ?_
      show sendChunk l (i + 1) = _
      rw [sendChunk_succ]
    rw [hmap, ih (l.drop CHUNK_SIZE) (by
      simp only [sendChunkCount, CHUNK_SIZE, List.length_drop] at h ⊢
      omega)]
    rw [sendChunk_zero, List.take_append_drop]

theorem runReceiver_append (s : WebRTCManager) (xs ys : List PairMsg) :
    runReceiver s (xs ++ ys)
      = ((runReceiver (runReceiver s xs).1 ys).1,
         (runReceiver s xs).2 ++ (runReceiver (runReceiver s xs).1 ys).2) := by
  induction xs generalizing s with
  | nil => simp [runReceiver]
  | cons m ms ih =>
    simp only [List.cons_append, runReceiver, List.append_eq]
    rw [ih]
    simp [List.append_assoc]

theorem run_chunks (fd : FileData) (payload : List Nat) (tot : Nat) :
    ∀ n : Nat,
      runReceiver
        { fileData := some fd, receivedChunks := [], expectedChunkIndex := 0,
          peer := none, connectionTimeout := none }
        (framesUpTo payload tot n)
      = ({ fileData := some fd,
           receivedChunks := idxFrom 0 ((List.range n).map (sendChunk payload)),
           expectedChunkIndex := n, peer := none, connectionTimeout := none },
         (List.range n).map fun t =>
           PairEvent.progress (t + 1) fd.chunks (jsRound100 (t + 1) fd.chunks)) := by
  intro n
  induction n with
  | zero => rfl
  | succ n ih =>
    have hsplit : framesUpTo payload tot (n + 1)
        = framesUpTo payload tot n
          ++ [PairMsg.chunkStart n (sendChunk payload n).length tot,
              PairMsg.binary (sendChunk payload n)] := by
      unfold framesUpTo
      rw [List.range_succ, List.flatMap_append]
      rfl
    rw [hsplit, runReceiver_append, ih]
    have hlen : (idxFrom 0 ((List.range n).map (sendChunk payload))).length = n := by
      rw [length_idxFrom, List.length_map, List.length_range]
    have habsent :
        mapGet (idxFrom 0 ((List.range n).map (sendChunk payload))) n = none := by
      apply mapGet_idxFrom_ge
      simp
    simp only [runReceiver, handleReceivedData, handleBinaryChunk]
    rw [mapSet_eq_append _ _ _ habsent]
    have hset : idxFrom 0 ((List.range n).map (sendChunk payload))
          ++ [(n, sendChunk payload n)]
        = idxFrom 0 ((List.range (n + 1)).map (sendChunk payload)) := by
      rw [List.range_succ, List.map_append]
      simp only [List.map_cons, List.map_nil]
      rw [idxFrom_append_singleton]
      simp
    simp only [List.length_append, hlen, List.length_cons, List.length_nil]
    rw [hset]
    simp [List.range_succ, hlen]

theorem jsRound100_eq_round (a b : Nat) (hb : 0 < b) :
    (jsRound100 a b : ℤ) = round ((100 * a : ℚ) / (b : ℚ)) := by
  have hb' : (b : ℚ) ≠ 0 := by positivity
  have h2b : ((2 * b : ℕ) : ℚ) ≠ 0 := by positivity
  rw [round_eq]
  have h1 : (100 * a : ℚ) / (b : ℚ) + 1 / 2
      = ((200 * a + b : ℕ) : ℚ) / ((2 * b : ℕ) : ℚ) := by
    push_cast
    field_simp
    ring
  rw [h1, Rat.floor_natCast_div_natCast]
  unfold jsRound100
  push_cast [Int.ofNat_div]
  norm_num

theorem sentWiresTo_append (sid : String) (a b : List ChatEvent) :
    sentWiresTo sid (a ++ b) = sentWiresTo sid a ++ sentWiresTo sid b := by
  unfold sentWiresTo
  rw [List.filterMap_append]

theorem sentWiresTo_flatMap {γ : Type} (sid : String) (xs : List γ)
    (h : γ → List ChatEvent) :
    sentWiresTo sid (xs.flatMap h) = xs.flatMap fun x => sentWiresTo sid (h x) := by
  induction xs with
  | nil => rfl
  | cons x xs ih =>
    rw [List.flatMap_cons, List.flatMap_cons, sentWiresTo_append, ih]

theorem sentWiresTo_attempts (sid : String) (ws : List Wire) (ok : Bool) :
    sentWiresTo sid (ws.map fun w => ChatEvent.sendAttempt sid w ok) = ws := by
  induction ws with
  | nil => rfl
  | cons w ws ih =>
    unfold sentWiresTo at ih ⊢
    simp [List.filterMap_cons, ih]

theorem sentWiresTo_attempts_ne (sid t : String) (h : t ≠ sid)
    (ws : List Wire) (ok : Bool) :
    sentWiresTo sid (ws.map fun w => ChatEvent.sendAttempt t w ok) = [] := by
  induction ws with
  | nil => rfl
  | cons w ws ih =>
    unfold sentWiresTo at ih ⊢
    simp [List.filterMap_cons, ih, h]

theorem sentWiresTo_sendTo_self (s : ChatState) (sid : String) (ws : List Wire)
    (p : Transport) (hp : mapGet s.peers sid = some p)
    (hc : p.connected = true) (ht : p.sendThrows = false) :
    sentWiresTo sid (sendTo s sid ws) = ws := by
  unfold sendTo
  rw [hp]
  simp only [hc, ht, if_true, Bool.false_eq_true, if_false]
  exact sentWiresTo_attempts sid ws true

theorem sentWiresTo_sendTo_other (s : ChatState) (sid t : String)
    (ws : List Wire) (h : t ≠ sid) :
    sentWiresTo sid (sendTo s t ws) = [] := by
  unfold sendTo
  cases mapGet s.peers t with
  | none => rfl
  | some p =>
    by_cases hc : p.connected
    · by_cases ht : p.sendThrows
      · simp only [hc, ht, if_true]
        exact sentWiresTo_attempts_ne sid t h (ws.take 1) false
      · simp only [hc, ht, Bool.false_eq_true, if_true, if_false]
        exact sentWiresTo_attempts_ne sid t h ws true
    · simp [hc, sentWiresTo]

theorem sentWiresTo_fanout_none (s : ChatState) (sid : String)
    (ts : List String) (ws : String → List Wire) (h : sid ∉ ts) :
    sentWiresTo sid (ts.flatMap fun t => sendTo s t (ws t)) = [] := by
  rw [sentWiresTo_flatMap]
  apply List.flatMap_eq_nil_iff.mpr
  intro t ht
  exact sentWiresTo_sendTo_other s sid t (ws t) (by rintro rfl; exact h ht)

theorem sentWiresTo_fanout (s : ChatState) (sid : String) (ts : List String)
    (ws : String → List Wire) (p : Transport)
    (hcount : ts.count sid = 1)
    (hp : mapGet s.peers sid = some p) (hc : p.connected = true)
    (ht : p.sendThrows = false) :
    sentWiresTo sid (ts.flatMap fun t => sendTo s t (ws t)) = ws sid := by
  induction ts with
  | nil => simp at hcount
  | cons t ts ih =>
    rw [List.flatMap_cons, sentWiresTo_append]
    by_cases hts : t = sid
    · subst hts
      have hzero : ts.count t = 0 := by
        rw [List.count_cons_self] at hcount
        omega
      rw [sentWiresTo_sendTo_self s t (ws t) p hp hc ht,
        sentWiresTo_fanout_none s t ts ws (List.count_eq_zero.mp hzero)]
      simp
    · rw [sentWiresTo_sendTo_other s sid t (ws t) hts, ih (by
        rwa [List.count_cons_of_ne (by simpa using Ne.symm hts)] at hcount)]
      simp

theorem filter_flatMap_nil {γ α : Type} (xs : List γ) (h : γ → List α)
    (p : α → Bool) (hall : ∀ x ∈ xs, (h x).filter p = []) :
    (xs.flatMap h).filter p = [] := by
  induction xs with
  | nil => rfl
  | cons x xs ih =>
    rw [List.flatMap_cons, List.filter_append, hall x (by simp),
      ih fun y hy => hall y (by simp [hy])]
    rfl

theorem pairGet_even {γ β : Type} (f g : γ → β) :
    ∀ (xs : List γ) (k : Nat),
      (xs.flatMap fun x => [f x, g x])[2 * k]? = xs[k]?.map f := by
  intro xs
  induction xs with
  | nil => simp
  | cons x xs ih =>
    intro k
    cases k with
    | zero => simp
    | succ k =>
      rw [List.flatMap_cons,
        show (2 * (k + 1)) = (2 * k + 1) + 1 by omega]
      simp only [List.cons_append, List.nil_append, List.getElem?_cons_succ]
      exact ih k

theorem pairGet_odd {γ β : Type} (f g : γ → β) :
    ∀ (xs : List γ) (k : Nat),
      (xs.flatMap fun x => [f x, g x])[2 * k + 1]? = xs[k]?.map g := by
  intro xs
  induction xs with
  | nil => simp
  | cons x xs ih =>
    intro k
    cases k with
    | zero => simp
    | succ k =>
      rw [List.flatMap_cons,
        show (2 * (k + 1) + 1) = (2 * k + 1) + 1 + 1 by omega]
      simp only [List.cons_append, List.nil_append, List.getElem?_cons_succ]
      exact ih k

theorem runReceiver_append_snd (s : WebRTCManager) (xs ys : List PairMsg) :
    (runReceiver s (xs ++ ys)).2
      = (runReceiver s xs).2 ++ (runReceiver (runReceiver s xs).1 ys).2 := by
  rw [runReceiver_append]

theorem assembleFile_success (fd : FileData) (m : List (Nat × List Nat))
    (k : Nat) (pe : Option Transport) (ct : Option Nat) (cl : List (List Nat))
    (hlen : m.length = fd.chunks) (hcol : collectFrom m 0 fd.chunks = some cl) :
    assembleFile
        { fileData := some fd, receivedChunks := m,
          expectedChunkIndex := k, peer := pe, connectionTimeout := ct }
      = ({ fileData := some fd, receivedChunks := m, expectedChunkIndex := k,
           peer := pe, connectionTimeout := ct },
         [PairEvent.fileReceived fd.name fd.type cl.flatten]) := by
  unfold assembleFile
  simp [hlen, hcol]

/-- C1: Pair-protocol round-trip law.  For every payload, delivering the exact
frame sequence emitted by `WebRTCManager.sendFile` (chunk count
`ceil(size / 16384)`) in order to a fresh receiver produces per-chunk progress
callbacks followed by exactly one file-received callback whose bytes, name and
mime type equal the original; in the empty-payload boundary case the chunk
count is `0` and the file event fires immediately on the `fileComplete` frame;
a 50000-byte payload gives chunk count `4` with a final chunk of `848`
bytes. -/
theorem pair_transfer_roundtrip (name mime : String) (payload : List Nat) :
    (runReceiver freshReceiver (sendFileFrames name mime payload)).2
      = ((List.range (sendChunkCount payload.length)).map fun t =>
           PairEvent.progress (t + 1) (sendChunkCount payload.length)
             (jsRound100 (t + 1) (sendChunkCount payload.length)))
        ++ [PairEvent.fileReceived name mime payload]
    ∧ (payload.length = 0 →
        sendChunkCount payload.length = 0
        ∧ (runReceiver freshReceiver (sendFileFrames name mime payload)).2
            = [PairEvent.fileReceived name mime payload])
    ∧ (0 < payload.length →
        CHUNK_SIZE * (sendChunkCount payload.length - 1) < payload.length
        ∧ payload.length ≤ CHUNK_SIZE * sendChunkCount payload.length)
    ∧ (payload.length = 50000 →
        sendChunkCount payload.length = 4
        ∧ (sendChunk payload 3).length = 848) := by
  have main : (runReceiver freshReceiver (sendFileFrames name mime payload)).2
      = ((List.range (sendChunkCount payload.length)).map fun t =>
           PairEvent.progress (t + 1) (sendChunkCount payload.length)
             (jsRound100 (t + 1) (sendChunkCount payload.length)))
        ++ [PairEvent.fileReceived name mime payload] := by
    have h0 : (runReceiver freshReceiver (sendFileFrames name mime payload)).2
        = (runReceiver
            { fileData :=
                some ⟨name, payload.length, mime, sendChunkCount payload.length⟩,
              receivedChunks := [], expectedChunkIndex := 0,
              peer := none, connectionTimeout := none }
            (framesUpTo payload (sendChunkCount payload.length)
                (sendChunkCount payload.length)
              ++ [PairMsg.fileComplete])).2 := rfl
    rw [h0, runReceiver_append_snd,
      run_chunks ⟨name, payload.length, mime, sendChunkCount payload.length⟩
        payload (sendChunkCount payload.length) (sendChunkCount payload.length)]
    have hlen :
        (idxFrom 0
          ((List.range (sendChunkCount payload.length)).map (sendChunk payload))).length
        = sendChunkCount payload.length := by
      rw [length_idxFrom, List.length_map, List.length_range]
    have hcol : collectFrom
        (idxFrom 0
          ((List.range (sendChunkCount payload.length)).map (sendChunk payload)))
        0 (sendChunkCount payload.length)
        = some ((List.range (sendChunkCount payload.length)).map (sendChunk payload)) := by
      have hc := collectFrom_of_get
        ((List.range (sendChunkCount payload.length)).map (sendChunk payload))
        (idxFrom 0
          ((List.range (sendChunkCount payload.length)).map (sendChunk payload)))
        0 (fun i => mapGet_idxFrom_add _ 0 i)
      rwa [List.length_map, List.length_range] at hc
    have hone : ∀ s : WebRTCManager,
        (runReceiver s [PairMsg.fileComplete]).2 = (assembleFile s).2 ++ [] :=
      fun s => rfl
    dsimp only
    rw [hone, assembleFile_success
        ⟨name, payload.length, mime, sendChunkCount payload.length⟩ _ _ _ _ _
        hlen hcol]
    rw [flatten_sendChunks (sendChunkCount payload.length) payload rfl]
    simp
  refine ⟨main, ?_, ?_, ?_⟩
  · intro hz
    have hn : sendChunkCount payload.length = 0 := by
      simp only [sendChunkCount, CHUNK_SIZE, hz]
    refine ⟨hn, ?_⟩
    rw [main, hn]
    simp
  · intro hpos
    simp only [sendChunkCount, CHUNK_SIZE]
    constructor <;> omega
  · intro h50
    constructor
    · rw [h50]
      decide
    · simp only [sendChunk, CHUNK_SIZE, List.length_take, List.length_drop, h50]
      omega

/-- Witness for C1: instantiation at a concrete 50000-byte payload (chunk
count 4, final chunk 848 bytes) and at the empty payload (immediate
completion). -/
theorem pair_transfer_roundtrip_witness :
    sendChunkCount (List.replicate 50000 0 : List Nat).length = 4
    ∧ (sendChunk (List.replicate 50000 0) 3).length = 848
    ∧ (runReceiver freshReceiver (sendFileFrames "a.bin" "app" [])).2
        = [PairEvent.fileReceived "a.bin" "app" []] := by
  have h1 := pair_transfer_roundtrip "a.bin" "app" (List.replicate 50000 0)
  have h2 := pair_transfer_roundtrip "a.bin" "app" []
  have hlen : (List.replicate 50000 0 : List Nat).length = 50000 :=
    List.length_replicate 50000 0
  refine ⟨(h1.2.2.2 hlen).1, (h1.2.2.2 hlen).2, (h2.2.1 (by simp)).2⟩

theorem length_flatMap_pairs {γ β : Type} (f g : γ → β) (xs : List γ) :
    (xs.flatMap fun x => [f x, g x]).length = 2 * xs.length := by
  induction xs with
  | nil => rfl
  | cons x xs ih =>
    rw [List.flatMap_cons, List.length_append, ih]
    simp
    omega

theorem filterMap_pairs {γ β δ : Type} (f g : γ → β) (h : β → Option δ)
    (m : γ → δ) (hf : ∀ x, h (f x) = none) (hg : ∀ x, h (g x) = some (m x))
    (xs : List γ) :
    (xs.flatMap fun x => [f x, g x]).filterMap h = xs.map m := by
  induction xs with
  | nil => rfl
  | cons x xs ih =>
    rw [List.flatMap_cons, List.filterMap_append, ih, List.map_cons]
    simp [List.filterMap_cons, hf x, hg x]

theorem flatMap_congr_mem {γ β : Type} (xs : List γ) (f g : γ → List β)
    (h : ∀ x ∈ xs, f x = g x) : xs.flatMap f = xs.flatMap g := by
  induction xs with
  | nil => rfl
  | cons x xs ih =>
    rw [List.flatMap_cons, List.flatMap_cons, h x (by simp),
      ih fun y hy => h y (by simp [hy])]

/-- C5: Send-side frame emission order.  The pair protocol's `sendFile` emits
exactly one `fileStart` frame carrying the descriptor first, then for each
ascending index `i` one `chunkStart {index, size, total}` control frame
immediately followed by the binary frame holding the slice
`payload[i*CHUNK_SIZE : min((i+1)*CHUNK_SIZE, size)]`, then exactly one final
`fileComplete` frame; the broadcast `sendFile` delivers the analogous sequence
(its chunk-meta frames carry `{fileId, chunkIndex, totalChunks}`) to each
connected target transport in the same strict interleaving. -/
theorem send_frame_emission_order :
    (∀ (name mime : String) (payload : List Nat),
      (sendFileFrames name mime payload).head?
        = some (PairMsg.fileStart
            ⟨name, payload.length, mime, sendChunkCount payload.length⟩)
      ∧ (sendFileFrames name mime payload).getLast? = some PairMsg.fileComplete
      ∧ (sendFileFrames name mime payload).length
          = 2 + 2 * sendChunkCount payload.length
      ∧ ((sendFileFrames name mime payload).filter isFileStartMsg).length = 1
      ∧ ((sendFileFrames name mime payload).filter isFileCompleteMsg).length = 1
      ∧ (sendFileFrames name mime payload).filterMap binaryData
          = (List.range (sendChunkCount payload.length)).map (sendChunk payload)
      ∧ ∀ i < sendChunkCount payload.length,
          (sendFileFrames name mime payload)[1 + 2 * i]?
            = some (PairMsg.chunkStart i (sendChunk payload i).length
                (sendChunkCount payload.length))
          ∧ (sendFileFrames name mime payload)[2 + 2 * i]?
            = some (PairMsg.binary (sendChunk payload i)))
    ∧ (∀ (s : ChatState) (sid fid fn ft : String) (payload : List Nat)
        (p : Transport) (es : List ChatEvent),
        s.isHost = true →
        mapGet s.peers sid = some p → p.connected = true →
        p.sendThrows = false →
        (s.subscribers.map Prod.fst).count sid = 1 →
        chatSendFile s fid fn payload ft none = Except.ok es →
        sentWiresTo sid es
          = Wire.fileStart fid fn payload.length ft (sendChunkCount payload.length)
            :: (((List.range (sendChunkCount payload.length)).flatMap fun i =>
                  [Wire.fileChunk fid i (sendChunkCount payload.length),
                   Wire.binary (sendChunk payload i)])
                ++ [Wire.fileComplete fid])) := by
  constructor
  · intro name mime payload
    refine ⟨rfl, ?_, ?_, ?_, ?_, ?_, ?_⟩
    · show (PairMsg.fileStart _
          :: (framesUpTo payload _ _ ++ [PairMsg.fileComplete])).getLast? = _
      rw [← List.cons_append, List.getLast?_concat]
    · show (PairMsg.fileStart _
          :: (framesUpTo payload _ _ ++ [PairMsg.fileComplete])).length = _
      rw [List.length_cons, List.length_append]
      unfold framesUpTo
      rw [length_flatMap_pairs]
      simp
      omega
    · have hbody : ((List.range (sendChunkCount payload.length)).flatMap fun i =>
          [PairMsg.chunkStart i (sendChunk payload i).length
             (sendChunkCount payload.length),
           PairMsg.binary (sendChunk payload i)]).filter isFileStartMsg = [] :=
        filter_flatMap_nil _ _ _ (fun x _ => rfl)
      show ((PairMsg.fileStart _
          :: (framesUpTo payload _ _ ++ [PairMsg.fileComplete])).filter
            isFileStartMsg).length = 1
      unfold framesUpTo
      rw [List.filter_cons, List.filter_append, hbody]
      rfl
    · have hbody : ((List.range (sendChunkCount payload.length)).flatMap fun i =>
          [PairMsg.chunkStart i (sendChunk payload i).length
             (sendChunkCount payload.length),
           PairMsg.binary (sendChunk payload i)]).filter isFileCompleteMsg = [] :=
        filter_flatMap_nil _ _ _ (fun x _ => rfl)
      show ((PairMsg.fileStart _
          :: (framesUpTo payload _ _ ++ [PairMsg.fileComplete])).filter
            isFileCompleteMsg).length = 1
      unfold framesUpTo
      rw [List.filter_cons, List.filter_append, hbody]
      rfl
    · have hbody : ((List.range (sendChunkCount payload.length)).flatMap fun i =>
          [PairMsg.chunkStart i (sendChunk payload i).length
             (sendChunkCount payload.length),
           PairMsg.binary (sendChunk payload i)]).filterMap binaryData
          = (List.range (sendChunkCount payload.length)).map (sendChunk payload) :=
        filterMap_pairs
          (fun i => PairMsg.chunkStart i (sendChunk payload i).length
            (sendChunkCount payload.length))
          (fun i => PairMsg.binary (sendChunk payload i))
          binaryData (sendChunk payload) (fun x => rfl) (fun x => rfl) _
      show (PairMsg.fileStart _
          :: (framesUpTo payload _ _ ++ [PairMsg.fileComplete])).filterMap
            binaryData = _
      unfold framesUpTo
      rw [List.filterMap_cons, List.filterMap_append, hbody]
      simp [binaryData]
    · intro i hi
      have hlen : (framesUpTo payload (sendChunkCount payload.length)
          (sendChunkCount payload.length)).length
          = 2 * sendChunkCount payload.length := by
        unfold framesUpTo
        rw [length_flatMap_pairs]
        simp
      constructor
      · show (PairMsg.fileStart _
            :: (framesUpTo payload _ _ ++ [PairMsg.fileComplete]))[1 + 2 * i]? = _
        rw [show 1 + 2 * i = 2 * i + 1 by omega, List.getElem?_cons_succ,
          List.getElem?_append, if_pos (by omega)]
        unfold framesUpTo
        rw [pairGet_even, List.getElem?_range hi]
        rfl
      · show (PairMsg.fileStart _
            :: (framesUpTo payload _ _ ++ [PairMsg.fileComplete]))[2 + 2 * i]? = _
        rw [show 2 + 2 * i = (2 * i + 1) + 1 by omega, List.getElem?_cons_succ,
          List.getElem?_append, if_pos (by omega)]
        unfold framesUpTo
        rw [pairGet_odd, List.getElem?_range hi]
        rfl
  · intro s sid fid fn ft payload p es hHost hp hc ht hcount hok
    have hes : es = chatSendFileEvents s fid fn payload ft none := by
      unfold chatSendFile at hok
      rw [hHost] at hok
      simp at hok
      exact hok.symm
    subst hes
    unfold chatSendFileEvents
    have hdrop : ∀ (m : ChatMsg) (evs : List ChatEvent),
        sentWiresTo sid (ChatEvent.messageShown m :: evs)
          = sentWiresTo sid evs := fun m evs => rfl
    rw [hdrop]
    simp only [Option.getD_none]
    rw [sentWiresTo_append, sentWiresTo_append,
      sentWiresTo_fanout s sid _ _ p hcount hp hc ht,
      sentWiresTo_fanout s sid _ _ p hcount hp hc ht,
      sentWiresTo_flatMap]
    have hmid : ∀ i ∈ List.range (sendChunkCount payload.length),
        sentWiresTo sid
          ((s.subscribers.map Prod.fst).flatMap (fun t =>
            sendTo s t
              [Wire.fileChunk fid i (sendChunkCount payload.length),
               Wire.binary (sendChunk payload i)])
           ++ [ChatEvent.fileProgress
                (jsRound100 (i + 1) (sendChunkCount payload.length)) fn])
          = [Wire.fileChunk fid i (sendChunkCount payload.length),
             Wire.binary (sendChunk payload i)] := by
      intro i _
      rw [sentWiresTo_append,
        sentWiresTo_fanout s sid _ _ p hcount hp hc ht]
      rfl
    rw [flatMap_congr_mem _ _ _ hmid]
    rfl

/-- Witness for C5: concrete instantiation of both parts — a 3-byte pair
payload (one chunk) and a broadcast of a 1-byte file from a host with two
subscribers to subscriber `p`. -/
theorem send_frame_emission_order_witness :
    (sendFileFrames "a.bin" "app" [1, 2, 3])[1]?
      = some (PairMsg.chunkStart 0 3 1)
    ∧ (sendFileFrames "a.bin" "app" [1, 2, 3])[2]?
      = some (PairMsg.binary [1, 2, 3])
    ∧ sentWiresTo "p" (chatSendFileEvents twoSubHost "f1" "x.bin" [5] "app" none)
      = [Wire.fileStart "f1" "x.bin" 1 "app" 1, Wire.fileChunk "f1" 0 1,
         Wire.binary [5], Wire.fileComplete "f1"] := by
  have h := send_frame_emission_order
  have hp := (h.1 "a.bin" "app" [1, 2, 3]).2.2.2.2.2.2 0 (by decide)
  have hc := h.2 twoSubHost "p" "f1" "x.bin" "app" [5] ⟨true, false⟩
    (chatSendFileEvents twoSubHost "f1" "x.bin" [5] "app" none)
    rfl (by decide) rfl rfl (by decide) rfl
  refine ⟨?_, ?_, ?_⟩
  · have := hp.1
    norm_num at this ⊢
    rw [this]
    decide
  · have := hp.2
    norm_num at this ⊢
    rw [this]
    decide
  · rw [hc]
    decide

/-- C6: Arrival-order chunk indexing with progress.  While a transfer is
active (metadata present, received-chunk map holding exactly the indices below
the counter), a `chunkStart` control frame changes nothing — so the declared
index `j` is irrelevant — and the next binary frame is stored under the
current counter value, the counter is incremented, and one progress callback
fires whose percentage is `Math.round(100 * receivedCount / chunks)`, with
`receivedCount` the incremented count. -/
theorem arrival_order_chunk_indexing (s : WebRTCManager) (fd : FileData)
    (d : List Nat) (j sz tot : Nat)
    (hfd : s.fileData = some fd)
    (habsent : mapGet s.receivedChunks s.expectedChunkIndex = none)
    (hsize : s.receivedChunks.length = s.expectedChunkIndex)
    (hpos : 0 < fd.chunks) :
    handleReceivedData s (PairMsg.chunkStart j sz tot) = (s, [])
    ∧ mapGet (handleReceivedData s (PairMsg.binary d)).1.receivedChunks
        s.expectedChunkIndex = some d
    ∧ (handleReceivedData s (PairMsg.binary d)).1.expectedChunkIndex
        = s.expectedChunkIndex + 1
    ∧ (handleReceivedData s (PairMsg.binary d)).2
        = [PairEvent.progress (s.expectedChunkIndex + 1) fd.chunks
            (jsRound100 (s.expectedChunkIndex + 1) fd.chunks)]
    ∧ (jsRound100 (s.expectedChunkIndex + 1) fd.chunks : ℤ)
        = round ((100 * (s.expectedChunkIndex + 1) : ℚ) / (fd.chunks : ℚ)) := by
  have hbin : handleReceivedData s (PairMsg.binary d) = handleBinaryChunk s d := by
    simp [handleReceivedData, hfd]
  have hlen' : (mapSet s.receivedChunks s.expectedChunkIndex d).length
      = s.expectedChunkIndex + 1 := by
    rw [mapSet_eq_append _ _ _ habsent, List.length_append, hsize]
    rfl
  refine ⟨rfl, ?_, ?_, ?_, ?_⟩
  · rw [hbin]
    simp only [handleBinaryChunk, hfd]
    exact mapGet_mapSet_self _ _ _
  · rw [hbin]
    simp [handleBinaryChunk, hfd]
  · rw [hbin]
    simp only [handleBinaryChunk, hfd, hlen']
  · have h := jsRound100_eq_round (s.expectedChunkIndex + 1) fd.chunks hpos
    push_cast at h ⊢
    exact h

/-- Witness for C6: delivering a binary frame to a freshly started one-chunk
receiver stores it under index 0, bumps the counter to 1 and reports 100
percent. -/
theorem arrival_order_chunk_indexing_witness :
    handleReceivedData startedReceiver (PairMsg.chunkStart 7 2 1)
        = (startedReceiver, [])
    ∧ mapGet (handleReceivedData startedReceiver
        (PairMsg.binary [1, 2])).1.receivedChunks 0 = some [1, 2]
    ∧ (handleReceivedData startedReceiver
        (PairMsg.binary [1, 2])).1.expectedChunkIndex = 1
    ∧ (handleReceivedData startedReceiver (PairMsg.binary [1, 2])).2
        = [PairEvent.progress 1 1 100] := by
  have h := arrival_order_chunk_indexing startedReceiver ⟨"a.bin", 5, "app", 1⟩
    [1, 2] 7 2 1 rfl rfl rfl (by decide)
  refine ⟨h.1, h.2.1, h.2.2.1, ?_⟩
  rw [h.2.2.2.1]
  decide

/-- C10: the pair manager's inbound-data dispatcher is a total function over
all message shapes (every match arm is covered by construction), and a binary
frame arriving while no file metadata is recorded is logged and dropped: the
state — metadata, chunk map, counter — is returned unchanged and no progress
or file callback fires. -/
theorem binary_without_metadata_dropped (s : WebRTCManager) (d : List Nat)
    (h : s.fileData = none) :
    handleReceivedData s (PairMsg.binary d)
      = (s, [PairEvent.warn "Received binary data without file metadata"]) := by
  simp [handleReceivedData, h]

/-- Witness for C10: a binary frame delivered to a fresh receiver. -/
theorem binary_without_metadata_dropped_witness :
    handleReceivedData freshReceiver (PairMsg.binary [1])
      = (freshReceiver,
         [PairEvent.warn "Received binary data without file metadata"]) :=
  binary_without_metadata_dropped freshReceiver [1] rfl

/-- C7: Assembly completeness guard.  The pair manager's reconstructed-file
callback fires exactly when the stored chunk count equals the declared chunk
count and every index in `[0, chunks)` is present; otherwise no file event is
emitted and the state is unchanged, and when it fires the payload is the
in-order concatenation of all chunks.  The broadcast manager's
`handleFileComplete` fires its assembled-file message exactly when the
transfer exists, its counter equals `totalChunks` and every index is present,
and leaves the state unchanged when it does not fire. -/
theorem assembly_completeness_guard :
    (∀ (s : WebRTCManager) (fd : FileData), s.fileData = some fd →
      ((assembleFile s).2.any isFileReceivedEv = true ↔
        s.receivedChunks.length = fd.chunks
        ∧ ∀ i < fd.chunks, (mapGet s.receivedChunks i).isSome)
      ∧ (assembleFile s).1 = s
      ∧ ∀ cs, collectFrom s.receivedChunks 0 fd.chunks = some cs →
          s.receivedChunks.length = fd.chunks →
          (assembleFile s).2
            = [PairEvent.fileReceived fd.name fd.type cs.flatten])
    ∧ ∀ (s : ChatState) (fid : String),
        ((chatHandleFileComplete s fid).2.any isFileAssembledEv = true ↔
          ∃ tr, mapGet s.fileTransfers fid = some tr
            ∧ tr.receivedChunks = tr.totalChunks
            ∧ ∀ i < tr.totalChunks, (mapGet tr.chunks i).isSome)
        ∧ ((chatHandleFileComplete s fid).2.any isFileAssembledEv = false →
            (chatHandleFileComplete s fid).1 = s) := by
  constructor
  · intro s fd hfd
    by_cases hlen : s.receivedChunks.length = fd.chunks
    · cases hcol : collectFrom s.receivedChunks 0 fd.chunks with
      | none =>
        have hres : assembleFile s = (s, [PairEvent.warn "Missing chunk"]) := by
          simp [assembleFile, hfd, hlen, hcol]
        rw [hres]
        refine ⟨?_, rfl, ?_⟩
        · simp only [List.any_cons, List.any_nil]
          constructor
          · intro h
            simp [isFileReceivedEv] at h
          · rintro ⟨-, hall⟩
            have : (collectFrom s.receivedChunks 0 fd.chunks).isSome :=
              (collectFrom_isSome_iff _ _ _).mpr fun i hi => by
                simpa using hall i hi
            rw [hcol] at this
            simp at this
        · intro cs hcs
          exact absurd hcs (by simp)
      | some cs =>
        have hres : assembleFile s
            = (s, [PairEvent.fileReceived fd.name fd.type cs.flatten]) := by
          simp [assembleFile, hfd, hlen, hcol]
        rw [hres]
        refine ⟨?_, rfl, ?_⟩
        · simp only [List.any_cons, List.any_nil, isFileReceivedEv]
          constructor
          · intro _
            refine ⟨hlen, fun i hi => ?_⟩
            have : (collectFrom s.receivedChunks 0 fd.chunks).isSome := by
              rw [hcol]; rfl
            have := (collectFrom_isSome_iff _ _ _).mp this i hi
            simpa using this
          · intro _
            simp
        · intro cs' hcs' _
          injection hcs' with h
          subst h
          rfl
    · have hres : assembleFile s
          = (s, [PairEvent.warn "Cannot assemble file: chunk count mismatch"]) := by
        simp [assembleFile, hfd, hlen]
      rw [hres]
      refine ⟨?_, rfl, ?_⟩
      · simp only [List.any_cons, List.any_nil, isFileReceivedEv]
        constructor
        · intro h
          simp at h
        · rintro ⟨h, -⟩
          exact absurd h hlen
      · intro cs _ h
        exact absurd h hlen
  · intro s fid
    cases hget : mapGet s.fileTransfers fid with
    | none =>
      have hres : chatHandleFileComplete s fid
          = (s, [ChatEvent.warn "File transfer not found"]) := by
        simp [chatHandleFileComplete, hget]
      rw [hres]
      refine ⟨?_, fun _ => rfl⟩
      simp only [List.any_cons, List.any_nil, isFileAssembledEv]
      constructor
      · intro h
        simp at h
      · rintro ⟨tr, htr, -⟩
        exact absurd htr (by simp)
    | some tr =>
      by_cases hcnt : tr.receivedChunks = tr.totalChunks
      · cases hcol : collectFrom tr.chunks 0 tr.totalChunks with
        | none =>
          have hres : chatHandleFileComplete s fid
              = (s, [ChatEvent.warn "Missing chunk"]) := by
            simp [chatHandleFileComplete, hget, hcnt, hcol]
          rw [hres]
          refine ⟨?_, fun _ => rfl⟩
          simp only [List.any_cons, List.any_nil, isFileAssembledEv]
          constructor
          · intro h
            simp at h
          · rintro ⟨tr', htr', -, hall⟩
            injection htr' with htr'
            subst htr'
            have : (collectFrom tr.chunks 0 tr.totalChunks).isSome :=
              (collectFrom_isSome_iff _ _ _).mpr fun i hi => by
                simpa using hall i hi
            rw [hcol] at this
            simp at this
        | some cs =>
          have hres : chatHandleFileComplete s fid
              = ({ s with fileTransfers := mapDelete s.fileTransfers fid },
                 [ChatEvent.fileAssembled fid tr.fileName tr.fileSize
                    tr.fileType cs.flatten]) := by
            simp [chatHandleFileComplete, hget, hcnt, hcol]
          rw [hres]
          constructor
          · simp only [List.any_cons, List.any_nil, isFileAssembledEv]
            constructor
            · intro _
              refine ⟨tr, rfl, hcnt, fun i hi => ?_⟩
              have : (collectFrom tr.chunks 0 tr.totalChunks).isSome := by
                rw [hcol]; rfl
              have := (collectFrom_isSome_iff _ _ _).mp this i hi
              simpa using this
            · intro _
              simp
          · intro h
            simp [isFileAssembledEv] at h
      · have hres : chatHandleFileComplete s fid
            = (s, [ChatEvent.warn "Incomplete file transfer"]) := by
          simp [chatHandleFileComplete, hget, hcnt]
        rw [hres]
        refine ⟨?_, fun _ => rfl⟩
        simp only [List.any_cons, List.any_nil, isFileAssembledEv]
        constructor
        · intro h
          simp at h
        · rintro ⟨tr', htr', hcnt', -⟩
          injection htr' with htr'
          subst htr'
          exact absurd hcnt' hcnt

/-- Witness for C7: the pair guard fires on a complete one-chunk receiver and
reconstructs `[9]`; the broadcast guard refuses the incomplete transfer of
`busyChatSubscriber` (1 of 2 chunks) and leaves its state unchanged. -/
theorem assembly_completeness_guard_witness :
    (assembleFile oneChunkReceiver).2.any isFileReceivedEv = true
    ∧ (assembleFile oneChunkReceiver).2
        = [PairEvent.fileReceived "a.bin" "app" [9]]
    ∧ (chatHandleFileComplete busyChatSubscriber "f").2.any isFileAssembledEv
        = false
    ∧ (chatHandleFileComplete busyChatSubscriber "f").1 = busyChatSubscriber := by
  have hp := assembly_completeness_guard.1 oneChunkReceiver ⟨"a.bin", 1, "app", 1⟩
    rfl
  have hc := assembly_completeness_guard.2 busyChatSubscriber "f"
  have hfalse : (chatHandleFileComplete busyChatSubscriber "f").2.any
      isFileAssembledEv = false := by decide
  refine ⟨?_, ?_, hfalse, hc.2 hfalse⟩
  · exact hp.1.mpr (by decide)
  · exact hp.2.2 [[9]] (by decide) (by decide)

theorem sendTo_single_connected (s : ChatState) (t : String) (w : Wire)
    (p : Transport) (hp : mapGet s.peers t = some p) (hc : p.connected = true) :
    sendTo s t [w] = [ChatEvent.sendAttempt t w (!p.sendThrows)] := by
  unfold sendTo
  rw [hp]
  by_cases htr : p.sendThrows <;> simp [hc, htr]

/-- Counterexample for C3: on a host whose pending transport has not yet
completed the handshake (`connected` still false — the situation immediately
after the answer is signalled), `processAnswer` succeeds, records the
subscriber and fires the joined callback, but performs NO transport send: the
private welcome message is not delivered, because `sendMessage` skips
transports whose `connected` flag is false. -/
theorem processAnswer_welcome_skipped :
    processAnswer pendingHost pendingAnswer 5
      = Except.ok
          ({ pendingHost with
              subscribers := [("a", ⟨"a", "Ann", true, 5⟩)] },
           [ChatEvent.signaled "a", ChatEvent.subscriberJoined "a" "Ann",
            ChatEvent.messageShown
              ⟨"Welcome to the chat!", "host", none, "text"⟩])
    ∧ ([ChatEvent.signaled "a", ChatEvent.subscriberJoined "a" "Ann",
        ChatEvent.messageShown
          ⟨"Welcome to the chat!", "host", none, "text"⟩].filter
          isSendAttemptEv) = [] := by
  constructor
  · rfl
  · rfl

/-- C3 (amended): for every answer envelope carrying a non-empty
`subscriberId` and `subscriberName`, `processAnswer` fails with the
unknown-subscriber error exactly when no pending transport is stored under the
envelope's id; on success it records `Subscriber{connected: true, joinedAt:
now}` under that id, emits exactly one subscriber-joined event, and the
private welcome text message is sent over the transport to just that
subscriber provided that transport already reports `connected` (and is
skipped otherwise). -/
theorem processAnswer_postcondition (s : ChatState) (sid sname : String)
    (now : Nat) (hHost : s.isHost = true) (hsid : sid ≠ "")
    (hsname : sname ≠ "") :
    (processAnswer s ⟨"answer", some sid, some sname⟩ now
        = Except.error ChatError.peerNotFound ↔ mapGet s.peers sid = none)
    ∧ ∀ p, mapGet s.peers sid = some p →
        ∃ s' evs, processAnswer s ⟨"answer", some sid, some sname⟩ now
            = Except.ok (s', evs)
          ∧ mapGet s'.subscribers sid = some ⟨sid, sname, true, now⟩
          ∧ (evs.filter isJoinedEv).length = 1
          ∧ evs.filter isSendAttemptEv
              = (if p.connected then
                  [ChatEvent.sendAttempt sid
                    (Wire.message ⟨"Welcome to the chat!", "host", none, "text"⟩)
                    (!p.sendThrows)]
                 else []) := by
  have hfalsy : (falsyStr (some sid) || falsyStr (some sname)) = false := by
    simp [falsyStr, hsid, hsname]
  constructor
  · cases hm : mapGet s.peers sid with
    | none => simp [processAnswer, hHost, hfalsy, hm]
    | some p => simp [processAnswer, hHost, hfalsy, hm]
  · intro p hm
    have hsend : sendTo
        { s with subscribers := mapSet s.subscribers sid ⟨sid, sname, true, now⟩ }
        sid [Wire.message ⟨"Welcome to the chat!", "host", none, "text"⟩]
        = (if p.connected then
            [ChatEvent.sendAttempt sid
              (Wire.message ⟨"Welcome to the chat!", "host", none, "text"⟩)
              (!p.sendThrows)]
           else []) := by
      by_cases hc : p.connected
      · rw [sendTo_single_connected
            ({ s with subscribers :=
                mapSet s.subscribers sid ⟨sid, sname, true, now⟩ } : ChatState)
            sid _ p (by exact hm) hc, if_pos hc]
      · unfold sendTo
        rw [show mapGet
            ({ s with subscribers :=
                mapSet s.subscribers sid ⟨sid, sname, true, now⟩ } : ChatState).peers
            sid = some p from hm]
        simp [hc]
    have hmsg : sendMessage
        { s with subscribers := mapSet s.subscribers sid ⟨sid, sname, true, now⟩ }
        "Welcome to the chat!" (some [sid])
        = ({ s with subscribers := mapSet s.subscribers sid ⟨sid, sname, true, now⟩ },
           (if p.connected then
              [ChatEvent.sendAttempt sid
                (Wire.message ⟨"Welcome to the chat!", "host", none, "text"⟩)
                (!p.sendThrows)]
            else [])
           ++ [ChatEvent.messageShown
                ⟨"Welcome to the chat!", "host", none, "text"⟩]) := by
      unfold sendMessage
      rw [← hsend]
      simp [hHost]
    have hEq : processAnswer s ⟨"answer", some sid, some sname⟩ now
        = Except.ok
            ({ s with subscribers := mapSet s.subscribers sid ⟨sid, sname, true, now⟩ },
             ChatEvent.signaled sid :: ChatEvent.subscriberJoined sid sname
               :: ((if p.connected then
                      [ChatEvent.sendAttempt sid
                        (Wire.message
                          ⟨"Welcome to the chat!", "host", none, "text"⟩)
                        (!p.sendThrows)]
                    else [])
                   ++ [ChatEvent.messageShown
                        ⟨"Welcome to the chat!", "host", none, "text"⟩])) := by
      unfold processAnswer
      rw [if_neg (by simp [hHost]), if_neg (by rw [hfalsy]; simp)]
      simp only [Option.getD_some]
      rw [hm]
      dsimp only
      rw [hmsg]
    refine ⟨_, _, hEq, mapGet_mapSet_self _ _ _, ?_, ?_⟩
    · by_cases hc : p.connected <;> simp [hc, isJoinedEv, List.filter_append]
    · by_cases hc : p.connected <;>
        simp [hc, isSendAttemptEv, List.filter_append]

/-- Witness for C3: on `connectedHost` (pending transport for "b" already
connected) the amended postcondition gives success with exactly one welcome
send to "b"; on the empty-peered variant the unknown-subscriber error is
observed via the iff. -/
theorem processAnswer_postcondition_witness :
    (∃ s' evs, processAnswer connectedHost ⟨"answer", some "b", some "Bo"⟩ 7
        = Except.ok (s', evs)
      ∧ mapGet s'.subscribers "b" = some ⟨"b", "Bo", true, 7⟩
      ∧ (evs.filter isJoinedEv).length = 1
      ∧ evs.filter isSendAttemptEv
          = [ChatEvent.sendAttempt "b"
              (Wire.message ⟨"Welcome to the chat!", "host", none, "text"⟩)
              true])
    ∧ processAnswer connectedHost ⟨"answer", some "z", some "Zo"⟩ 7
        = Except.error ChatError.peerNotFound := by
  constructor
  · have h := (processAnswer_postcondition connectedHost "b" "Bo" 7 rfl
      (by decide) (by decide)).2 ⟨true, false⟩ rfl
    obtain ⟨s', evs, h1, h2, h3, h4⟩ := h
    exact ⟨s', evs, h1, h2, h3, by simpa using h4⟩
  · exact (processAnswer_postcondition connectedHost "z" "Zo" 7 rfl
      (by decide) (by decide)).1.mpr rfl

theorem filter_shown_attempts (q : List Wire) (t : String) (ok : Bool) :
    ((q.map fun w => ChatEvent.sendAttempt t w ok).filter isMessageShownEv)
      = [] := by
  induction q with
  | nil => rfl
  | cons w q ih => simp [List.filter_cons, isMessageShownEv, ih]

theorem filter_shown_sendTo (s : ChatState) (t : String) (ws : List Wire) :
    ((sendTo s t ws).filter isMessageShownEv) = [] := by
  unfold sendTo
  cases mapGet s.peers t with
  | none => rfl
  | some p =>
    by_cases hc : p.connected
    · by_cases htr : p.sendThrows
      · simp only [hc, htr, if_true]
        exact filter_shown_attempts (ws.take 1) t false
      · simp only [hc, htr, Bool.false_eq_true, if_true, if_false]
        exact filter_shown_attempts ws t true
    · simp [hc]

theorem length_filter_attempts_fanout (s : ChatState) (ts : List String)
    (w : Wire)
    (h : ∀ t ∈ ts, ∃ p, mapGet s.peers t = some p ∧ p.connected = true) :
    ((ts.flatMap fun t => sendTo s t [w]).filter isSendAttemptEv).length
      = ts.length := by
  induction ts with
  | nil => rfl
  | cons t ts ih =>
    rw [List.flatMap_cons, List.filter_append, List.length_append]
    obtain ⟨p, hp, hc⟩ := h t (by simp)
    rw [sendTo_single_connected s t w p hp hc,
      ih fun u hu => h u (by simp [hu])]
    simp only [isSendAttemptEv, List.filter_cons, List.filter_nil,
      if_true, List.length_cons, List.length_nil]
    omega

/-- C4: Broadcast fan-out count.  When every subscriber in the host's map has
a connected transport, `sendMessage` with no explicit target list makes
exactly one per-transport send call per subscriber — throwing transports
included, since a throw is caught per target — and fires exactly one local
message callback. -/
theorem broadcast_fanout_count (s : ChatState) (content : String)
    (hHost : s.isHost = true)
    (hconn : ∀ sid ∈ s.subscribers.map Prod.fst,
      ∃ p, mapGet s.peers sid = some p ∧ p.connected = true) :
    ((sendMessage s content none).2.filter isSendAttemptEv).length
      = s.subscribers.length
    ∧ ((sendMessage s content none).2.filter isMessageShownEv).length = 1 := by
  have hred : (sendMessage s content none).2
      = ((s.subscribers.map Prod.fst).flatMap fun sid =>
          sendTo s sid [Wire.message ⟨content, "host", none, "text"⟩])
        ++ [ChatEvent.messageShown ⟨content, "host", none, "text"⟩] := by
    unfold sendMessage
    simp [hHost]
  rw [hred]
  constructor
  · rw [List.filter_append, List.length_append,
      length_filter_attempts_fanout s _ _ hconn, List.length_map]
    simp [isSendAttemptEv]
  · rw [List.filter_append, List.length_append,
      filter_flatMap_nil _ _ _ fun t _ => filter_shown_sendTo s t _]
    simp [isMessageShownEv]

/-- Witness for C4: `twoSubHost` has two connected subscribers, the second
with a throwing transport; one broadcast makes two send calls and one local
echo. -/
theorem broadcast_fanout_count_witness :
    ((sendMessage twoSubHost "hello" none).2.filter isSendAttemptEv).length = 2
    ∧ ((sendMessage twoSubHost "hello" none).2.filter
        isMessageShownEv).length = 1 := by
  have h := broadcast_fanout_count twoSubHost "hello" rfl ?hc
  · exact h
  case hc =>
    intro sid hsid
    simp [twoSubHost] at hsid
    rcases hsid with rfl | rfl
    · exact ⟨⟨true, false⟩, rfl, rfl⟩
    · exact ⟨⟨true, true⟩, rfl, rfl⟩

/-- C9: on a host-role broadcast manager, `isConnected` is true exactly when
the transport map is non-empty; it is true immediately after `createOffer`
stores a pending transport (whose own `connected` flag is still false); and it
never inspects any individual transport's `connected` flag — rewriting every
flag arbitrarily leaves the result unchanged. -/
theorem host_isConnected_nonempty (s : ChatState) (hHost : s.isHost = true) :
    (chatIsConnected s = !s.peers.isEmpty)
    ∧ (∀ nid s' env, createOffer s nid = Except.ok (s', env) →
        chatIsConnected s' = true)
    ∧ ∀ f : String → Bool → Bool,
        chatIsConnected
          { s with peers := s.peers.map fun q =>
              (q.1, ⟨f q.1 q.2.connected, q.2.sendThrows⟩) }
          = chatIsConnected s := by
  refine ⟨?_, ?_, ?_⟩
  · unfold chatIsConnected
    rw [if_pos hHost]
    cases s.peers <;> simp
  · intro nid s' env hok
    unfold createOffer at hok
    rw [if_neg (by simp [hHost])] at hok
    injection hok with hok
    have hs' : s' = { s with peers := mapSet s.peers nid ⟨false, false⟩ } := by
      have := congrArg Prod.fst hok
      simpa using this.symm
    subst hs'
    unfold chatIsConnected
    rw [if_pos hHost]
    simp only [decide_eq_true_eq]
    exact List.length_pos.mpr (mapSet_ne_nil s.peers nid ⟨false, false⟩)
  · intro f
    unfold chatIsConnected
    rw [if_pos hHost, if_pos hHost]
    rw [List.length_map]

/-- Witness for C9: a host with one pending transport whose `connected` flag
is false still reports `isConnected = true`, also after all flags are forced
to false; and `createOffer` on `connectedHost` yields a state reporting
connected. -/
theorem host_isConnected_nonempty_witness :
    chatIsConnected pendingHost = !pendingHost.peers.isEmpty
    ∧ (∃ s' env, createOffer connectedHost "x" = Except.ok (s', env)
        ∧ chatIsConnected s' = true)
    ∧ chatIsConnected
        { pendingHost with peers := pendingHost.peers.map fun q =>
            (q.1, ⟨false, q.2.sendThrows⟩) }
      = chatIsConnected pendingHost := by
  have h1 := host_isConnected_nonempty pendingHost rfl
  have h2 := host_isConnected_nonempty connectedHost rfl
  refine ⟨h1.1, ⟨_, _, rfl, h2.2.1 "x" _ _ rfl⟩, ?_⟩
  exact h1.2.2 fun _ _ => false

/-- C2 evaluation: on a subscriber with two overlapping transfers "A" (2
chunks) and "B" (1 chunk), the binary frame `[7]` — declared by the
immediately preceding `fileChunk` frame as chunk 0 of transfer "B" — is stored
in transfer "A"'s state (the first incomplete transfer in map order), transfer
"B" stays empty, and after one more misattributed frame transfer "A" passes
its completeness check and assembles the corrupted byte sequence `[7, 9]`.
This exhibits the cross-contamination the claim rules out: the receiver's
`handleBinaryChunk` ignores both the sender and the declared `fileId`. -/
theorem broadcast_chunk_misattribution :
    (runChat freshChatSubscriber (List.take 4 interleavedFrames)).1.fileTransfers
      = [("A", ⟨[(0, [7])], 1, 2, "a.bin", 32768, "app"⟩),
         ("B", ⟨[], 0, 1, "b.bin", 1, "app"⟩)]
    ∧ (runChat freshChatSubscriber interleavedFrames).1.fileTransfers
      = [("B", ⟨[], 0, 1, "b.bin", 1, "app"⟩)]
    ∧ ChatEvent.fileAssembled "A" "a.bin" 32768 "app" [7, 9]
        ∈ (runChat freshChatSubscriber interleavedFrames).2 := by
  refine ⟨by decide, by decide, by decide⟩

/-- Counterexample for C8: `ChatWebRTCManager.destroy` does not clear the
in-flight transfer state — `fileTransfers` survives the first call
unchanged. -/
theorem chat_destroy_keeps_transfers :
    (chatDestroy busyChatSubscriber).1.fileTransfers
      = [("f", ⟨[(0, [1])], 1, 2, "x.bin", 20000, "app"⟩)]
    ∧ (chatDestroy busyChatSubscriber).1.fileTransfers ≠ [] := by
  refine ⟨by decide, by decide⟩

/-- C8 (amended): `destroy()` is idempotent on both managers — the second
call emits no events (hence no duplicate disconnection) and leaves the state
fixed.  The first call tears down the transports and clears connection state;
the pair manager also clears all transfer state, while the broadcast manager
leaves the in-flight `fileTransfers` map in place. -/
theorem destroy_idempotent :
    (∀ s : WebRTCManager,
      pairDestroy (pairDestroy s).1 = ((pairDestroy s).1, [])
      ∧ (pairDestroy s).1 = freshReceiver)
    ∧ ∀ cs : ChatState,
        chatDestroy (chatDestroy cs).1 = ((chatDestroy cs).1, [])
        ∧ (chatDestroy cs).1.peers = []
        ∧ (chatDestroy cs).1.hostPeer = none
        ∧ (chatDestroy cs).1.subscribers = []
        ∧ (chatDestroy cs).1.fileTransfers = cs.fileTransfers := by
  constructor
  · intro s
    exact ⟨rfl, rfl⟩
  · intro cs
    exact ⟨rfl, rfl, rfl, rfl, rfl⟩

end FileShare
